import Mathlib

/-!
Verification of the annotation-to-timeline compiler (touying2video).

The definitions below are a shallow embedding of `src/main.py`:
* the annotation normalizer `query` (grouping of page records into
  logical/physical slides and directive replay), and
* the timeline compositor `compose_video_clip` (the sequential walk that
  schedules overlay clips, narration audio and base image clips).

Python floats are modelled as rationals (`ℚ`), machine ints as `ℤ`/`ℕ`,
fallible code as `Except`.  External collaborators (TTS, rasterizer,
video files) are opaque handles / an environment function giving each
overlay video its duration, exactly as the code only ever reads
`.duration` from them.
-/

namespace Touying2Video

/-- Python `int()` conversion applied to a real value: truncation toward
zero (`⌊q⌋` for nonnegative `q`, `⌈q⌉` for negative `q`). -/
def pyTrunc (q : ℚ) : ℤ := if 0 ≤ q then ⌊q⌋ else ⌈q⌉

/-- The overlay geometry values accepted by `dimension_to_absolute`:
Python `None`, a string ending in `%`, any other numeric string, or a
numeric literal. -/
inductive PyDim where
  | noneD
  | pct (p : ℚ)
  | strNum (v : ℚ)
  | num (v : ℚ)
  deriving DecidableEq

/-- Embeds `dimension_to_absolute(dimension, reference)` (main.py 240-250):
`None ↦ None`; `"<p>%" ↦ int(reference * p / 100)`; any other string or
numeric literal `v ↦ int(v)`. -/
def dimension_to_absolute : PyDim → ℤ → Option ℤ
  | .noneD, _ => Option.none
  | .pct p, reference => some (pyTrunc ((reference : ℚ) * p / 100))
  | .strNum v, _ => some (pyTrunc v)
  | .num v, _ => some (pyTrunc v)

/-- A `T2s-video-overlay` directive payload. -/
structure OverlayCue where
  start_from : ℤ
  video : String
  x : PyDim
  y : PyDim
  width : PyDim
  height : PyDim
  reverse : Bool
  deriving DecidableEq

/-- The directives attached to a logical slide (`item['t']` dispatch in
`query`, main.py 89-118).  `unknownDir` stands for any other tag. -/
inductive Directive where
  | speech (start_from : ℤ) (body : String)
  | durationLogical (v : ℚ)
  | durationPhysical (v : List ℚ)
  | videoOverlay (v : OverlayCue)
  | unknownDir (tag : String)
  deriving DecidableEq

/-- One raw page record from the typst query (`J['pages']` entries). -/
structure PageRecord where
  hidden : Bool
  overlay : ℕ
  t2s : List Directive
  deriving DecidableEq

/-- One resolved physical slide (the dicts built in main.py 83-87). -/
structure PhysicalSlide where
  speeches : List String
  videoOverlays : List OverlayCue
  duration : ℚ
  deriving DecidableEq

/-- The fatal failure modes of the normalizer: the `IndexError` from
`physical_count[-1]` on an empty list, the two `assert`s, the
`IndexError` from `durations[-1]` on an empty duration list, and the
`raise ValueError` for an unknown directive tag. -/
inductive QErr where
  | overlayBeforeFirst
  | startFromOutOfRange
  | multipleDuration
  | emptyDurations
  | unknownDirective
  deriving DecidableEq

/-- The grouping loop of `query` (main.py 65-74): skip hidden pages,
`overlay == 0` opens a new logical slide (keeping its directive list),
`overlay > 0` increments the physical count of the current one.  The
accumulator holds the groups built so far in reverse order, so the
current logical slide is its head. -/
def groupAux : List PageRecord → List (List Directive × ℕ) →
    Except QErr (List (List Directive × ℕ))
  | [], acc => .ok acc.reverse
  | p :: ps, acc =>
    if p.hidden then groupAux ps acc
    else if p.overlay = 0 then groupAux ps ((p.t2s, 1) :: acc)
    else
      match acc with
      | [] => .error .overlayBeforeFirst
      | (d, c) :: rest => groupAux ps ((d, c + 1) :: rest)

/-- Grouping pass of `query`: logical slides with their directive lists
and physical counts, in document order. -/
def groupPages (pages : List PageRecord) : Except QErr (List (List Directive × ℕ)) :=
  groupAux pages []

/-- `l` with its `i`-th element replaced by `f` of it (the in-place
updates `this_physical_slides[i][...] = ...`). -/
def listModify {α : Type*} (f : α → α) : ℕ → List α → List α
  | _, [] => []
  | 0, a :: as => f a :: as
  | n + 1, a :: as => a :: listModify f n as

/-- Duration-list reconciliation for `T2s-duration-physical`
(main.py 102-109).  Returns the reconciled list together with whether a
warning was emitted; an empty list hits `durations[-1]` (`IndexError`). -/
def reconcileDurations (durations : List ℚ) (physical_count : ℕ) :
    Except QErr (List ℚ × Bool) :=
  if durations.length < physical_count then
    match durations.getLast? with
    | Option.none => .error .emptyDurations
    | some last =>
      .ok (durations ++ List.replicate (physical_count - durations.length) last,
           durations.length ≠ 1)
  else if physical_count < durations.length then
    .ok (durations.take physical_count, true)
  else
    .ok (durations, false)

/-- `for i, duration in enumerate(durations): slides[i]['duration'] = duration`. -/
def assignDurations : List PhysicalSlide → List ℚ → List PhysicalSlide
  | slides, [] => slides
  | [], _ => []
  | s :: ss, d :: ds => { s with duration := d } :: assignDurations ss ds

/-- Directive replay over one logical slide (main.py 89-118): walks the
directive list, threading the allocated physical slides and the
`is_non_defaut_duration_set` flag. -/
def processLogicalAux (physical_count : ℕ) :
    List Directive → List PhysicalSlide → Bool → Except QErr (List PhysicalSlide)
  | [], slides, _ => .ok slides
  | item :: rest, slides, durSet =>
    match item with
    | .speech start_from body =>
      let sf := (max (start_from - 1) 0).toNat
      if sf < physical_count then
        processLogicalAux physical_count rest
          (listModify (fun s => { s with speeches := s.speeches ++ [body] }) sf slides)
          durSet
      else .error .startFromOutOfRange
    | .durationLogical v =>
      if durSet then .error .multipleDuration
      else
        processLogicalAux physical_count rest
          (slides.map fun s => { s with duration := v / (physical_count : ℚ) }) true
    | .durationPhysical ds =>
      if durSet then .error .multipleDuration
      else
        match reconcileDurations ds physical_count with
        | .error e => .error e
        | .ok (r, _) => processLogicalAux physical_count rest (assignDurations slides r) true
    | .videoOverlay cue =>
      let sf := (max (cue.start_from - 1) 0).toNat
      if sf < physical_count then
        processLogicalAux physical_count rest
          (listModify (fun s => { s with videoOverlays := s.videoOverlays ++ [cue] }) sf slides)
          durSet
      else .error .startFromOutOfRange
    | .unknownDir _ => .error .unknownDirective

/-- Resolution of one logical slide: allocate `physical_count` physical
slides defaulted to `duration_physical`, then replay the directives. -/
def processLogical (duration_physical : ℚ) (dirs : List Directive)
    (physical_count : ℕ) : Except QErr (List PhysicalSlide) :=
  processLogicalAux physical_count dirs
    (List.replicate physical_count
      { speeches := [], videoOverlays := [], duration := duration_physical })
    false

/-- `physical_slide_to_speech += this_physical_slides` over all logical
slides, in document order. -/
def processAll (duration_physical : ℚ) :
    List (List Directive × ℕ) → Except QErr (List PhysicalSlide)
  | [] => .ok []
  | (dirs, physical_count) :: rest =>
    match processLogical duration_physical dirs physical_count with
    | .error e => .error e
    | .ok this =>
      match processAll duration_physical rest with
      | .error e => .error e
      | .ok others => .ok (this ++ others)

/-- The normalizer `query` (main.py 44-126), restricted to its output
`physical_slide_to_speech`: group the pages, then resolve every logical
slide and concatenate. -/
def query (pages : List PageRecord) (duration_physical : ℚ) :
    Except QErr (List PhysicalSlide) :=
  match groupPages pages with
  | .error e => .error e
  | .ok groups => processAll duration_physical groups

/-! ## The compositor -/

/-- `transition['type']`: the string `'none'` or `'fade'`. -/
inductive TransitionKind where
  | noTransition
  | fade
  deriving DecidableEq

/-- The `transition` parameter of `compose_video_clip`. -/
structure Transition where
  type : TransitionKind
  duration : ℚ
  deriving DecidableEq

/-- The visual source of a clip: a rasterized slide image or an overlay
video file. -/
inductive ClipSource where
  | image (handle : ℕ)
  | video (path : String)
  deriving DecidableEq

/-- One scheduled visual clip: everything `compose_video_clip` sets on a
moviepy clip (start, duration, layer index, position, resize parameters,
cross-fade-in, time mirror). -/
structure VisualClip where
  source : ClipSource
  start : ℚ
  duration : ℚ
  layer : ℕ
  pos : Option (Option ℤ × Option ℤ)
  resizeParam : Option (Option ℤ × Option ℤ)
  resizeFull : Option (ℤ × ℤ)
  fadeIn : Option ℚ
  timeMirror : Bool
  deriving DecidableEq

/-- One scheduled audio clip. -/
structure AudioClip where
  handle : ℕ
  start : ℚ
  deriving DecidableEq

/-- One entry of `speech_data`: the duration and the (optional) audio
clip handle; `audio_clip = none` is the silent placeholder produced for
empty speech texts. -/
structure SpeechClip where
  duration : ℚ
  audio_clip : Option ℕ
  deriving DecidableEq

/-- The mutable state threaded through the slide walk of
`compose_video_clip`: `still_requied` (the narration backlog),
`time_played`, `audio_started`, and the two clip accumulators. -/
structure ComposeState where
  still_requied : ℚ
  time_played : ℚ
  audio_started : ℕ
  video_clips : List VisualClip
  audio_clips : List AudioClip
  deriving DecidableEq

/-- The composed output: the clips of the `CompositeVideoClip` and the
`CompositeAudioClip` attached to it. -/
structure Timeline where
  video_clips : List VisualClip
  audio_clips : List AudioClip
  deriving DecidableEq

/-- The fatal failure modes of the compositor: the up-front transition
check, the overlay `start_from` assert, the Python `TypeError` from
comparing `None > 0` in the resize branch, the
`assert still_requied == 0`, and the `IndexError` from
`speech_data[audio_started]`. -/
inductive CErr where
  | transitionNoneNonzero
  | startFromAssert
  | typeError
  | audiosNotFinished
  | speechIndex
  deriving DecidableEq

/-- Python `x is not None and x > 0` on an optional integer. -/
def optPos : Option ℤ → Bool
  | Option.none => false
  | some n => decide (0 < n)

/-- Python `x > 0` on an optional integer: comparing `None` with an int
raises `TypeError`. -/
def pyGtZero : Option ℤ → Except CErr Bool
  | Option.none => .error .typeError
  | some n => .ok (decide (0 < n))

/-- The resize-parameter computation of the overlay branch
(main.py 282-287): enter when `(w is not None and w > 0) or (h is not
None and h > 0)`, then build `param` from the bare comparisons `w > 0`
and `h > 0` (which raise `TypeError` on `None`). -/
def resizeParams (w h : Option ℤ) : Except CErr (Option (Option ℤ × Option ℤ)) :=
  if optPos w || optPos h then
    match pyGtZero w with
    | .error e => .error e
    | .ok wb =>
      match pyGtZero h with
      | .error e => .error e
      | .ok hb =>
        .ok (some (if wb then w else Option.none, if hb then h else Option.none))
  else .ok Option.none

/-- Scheduling of one overlay cue (main.py 269-291): check the
`start_from` assert, load the clip (its duration given by `env`), set
start/layer/position, resolve width/height and maybe resize, apply the
time mirror.  Resizing and `TimeMirror` do not change the duration. -/
def overlayStep (env : String → ℚ) (size : ℤ × ℤ) (num_slides : ℕ)
    (time_played : ℚ) (video_overlay : OverlayCue) : Except CErr VisualClip :=
  let start_from := (max (video_overlay.start_from - 1) 0).toNat
  if start_from < num_slides then
    match
      resizeParams (dimension_to_absolute video_overlay.width size.1)
        (dimension_to_absolute video_overlay.height size.2) with
    | .error e => .error e
    | .ok rp =>
      .ok { source := .video video_overlay.video
            start := time_played
            duration := env video_overlay.video
            layer := 2
            pos := some (dimension_to_absolute video_overlay.x size.1,
                         dimension_to_absolute video_overlay.y size.2)
            resizeParam := rp
            resizeFull := Option.none
            fadeIn := Option.none
            timeMirror := video_overlay.reverse }
  else .error .startFromAssert

/-- The overlay loop of one slide: emit each overlay clip and track
`overlay_length = max(overlay_length, clip.duration)`. -/
def overlayLoop (env : String → ℚ) (size : ℤ × ℤ) (num_slides : ℕ)
    (time_played : ℚ) :
    List OverlayCue → ℚ → List VisualClip → Except CErr (List VisualClip × ℚ)
  | [], overlay_length, acc => .ok (acc, overlay_length)
  | cue :: rest, overlay_length, acc =>
    match overlayStep env size num_slides time_played cue with
    | .error e => .error e
    | .ok clip =>
      overlayLoop env size num_slides time_played rest
        (max overlay_length clip.duration) (acc ++ [clip])

/-- The narration loop of one slide (main.py 296-308): for every speech
cue, `assert still_requied == 0`, look up `speech_data[audio_started]`;
a silent placeholder only advances the cursor; otherwise the audio clip
starts at `time_played + total`, and the running total grows by
`clip.duration + audio_gap`.  Returns the new cursor, the slide's total
narration time, and the emitted audio clips. -/
def audioLoop (speech_data : List SpeechClip) (audio_gap time_played : ℚ) :
    List String → ℚ → ℕ → ℚ → List AudioClip → Except CErr (ℕ × ℚ × List AudioClip)
  | [], _, audio_started, total, acc => .ok (audio_started, total, acc)
  | _ :: rest, still_requied, audio_started, total, acc =>
    if still_requied ≠ 0 then .error .audiosNotFinished
    else
      match speech_data[audio_started]? with
      | Option.none => .error .speechIndex
      | some clip =>
        match clip.audio_clip with
        | Option.none =>
          audioLoop speech_data audio_gap time_played rest still_requied
            (audio_started + 1) total acc
        | some hndl =>
          audioLoop speech_data audio_gap time_played rest still_requied
            (audio_started + 1) (total + (clip.duration + audio_gap))
            (acc ++ [{ handle := hndl, start := time_played + total }])

/-- `len(physical_slide_to_speech[physical_slide_i + 1]['speeches']) > 0`. -/
def nextHasSpeeches (slides : List PhysicalSlide) (i : ℕ) : Bool :=
  match slides[i + 1]? with
  | some s => !s.speeches.isEmpty
  | Option.none => false

/-- One iteration of the slide walk of `compose_video_clip`
(main.py 263-329): overlays, narration, duration extension when this is
the last slide or the next slide has narration, backlog decay, base
image clip (with fade-in after the first slide), clock advance. -/
def slideStep (slides_full : List PhysicalSlide) (speech_data : List SpeechClip)
    (env : String → ℚ) (transition : Transition) (audio_gap : ℚ) (size : ℤ × ℤ)
    (physical_slide : PhysicalSlide) (physical_slide_img : ℕ)
    (physical_slide_i : ℕ) (st : ComposeState) : Except CErr ComposeState :=
  match overlayLoop env size slides_full.length st.time_played
      physical_slide.videoOverlays 0 [] with
  | .error e => .error e
  | .ok (overlay_clips, overlay_length) =>
    let this_duration := max physical_slide.duration overlay_length
    match audioLoop speech_data audio_gap st.time_played physical_slide.speeches
        st.still_requied st.audio_started 0 [] with
    | .error e => .error e
    | .ok (audio_started, total_audio_time_in_this_slide, new_audio_clips) =>
      let still_requied := st.still_requied + total_audio_time_in_this_slide
      let this_duration :=
        if physical_slide_i + 1 = slides_full.length ∨
            nextHasSpeeches slides_full physical_slide_i
        then max this_duration (still_requied + audio_gap)
        else this_duration
      let still_requied := max 0 (still_requied - this_duration)
      let image_clip : VisualClip :=
        { source := .image physical_slide_img
          start := st.time_played
          duration := this_duration + transition.duration
          layer := 0
          pos := Option.none
          resizeParam := Option.none
          resizeFull := some size
          fadeIn := if 0 < physical_slide_i ∧ transition.type = .fade
                    then some transition.duration else Option.none
          timeMirror := false }
      .ok { still_requied := still_requied
            time_played := st.time_played + this_duration
            audio_started := audio_started
            video_clips := st.video_clips ++ overlay_clips ++ [image_clip]
            audio_clips := st.audio_clips ++ new_audio_clips }

/-- The slide walk: `for physical_slide_i, (physical_slide,
physical_slide_img) in enumerate(zip(...))`. -/
def composeAux (slides_full : List PhysicalSlide) (speech_data : List SpeechClip)
    (env : String → ℚ) (transition : Transition) (audio_gap : ℚ) (size : ℤ × ℤ) :
    List (PhysicalSlide × ℕ) → ℕ → ComposeState → Except CErr ComposeState
  | [], _, st => .ok st
  | (physical_slide, physical_slide_img) :: rest, physical_slide_i, st =>
    match slideStep slides_full speech_data env transition audio_gap size
        physical_slide physical_slide_img physical_slide_i st with
    | .error e => .error e
    | .ok st' =>
      composeAux slides_full speech_data env transition audio_gap size rest
        (physical_slide_i + 1) st'

/-- `compose_video_clip` (main.py 219-336): the up-front transition
check, then the slide walk from the zero state; the result is the
composite of all video clips with all audio clips attached. -/
def compose_video_clip (physical_slide_to_speech : List PhysicalSlide)
    (physical_slide_images : List ℕ) (speech_data : List SpeechClip)
    (env : String → ℚ) (transition : Transition) (audio_gap : ℚ)
    (size : ℤ × ℤ) : Except CErr Timeline :=
  if transition.type = .noTransition ∧ transition.duration ≠ 0 then
    .error .transitionNoneNonzero
  else
    match composeAux physical_slide_to_speech speech_data env transition audio_gap
        size (physical_slide_to_speech.zip physical_slide_images) 0
        { still_requied := 0, time_played := 0, audio_started := 0,
          video_clips := [], audio_clips := [] } with
    | .error e => .error e
    | .ok st => .ok { video_clips := st.video_clips, audio_clips := st.audio_clips }

/-! ## Concrete inputs for the end-to-end scenario (C1) -/

/-- Slide 1 of §8's scenario: `physical_count = 1`, one speech cue,
default duration 2; slide 2: no narration, default duration 2. -/
def c1slides : List PhysicalSlide :=
  [{ speeches := ["s1"], videoOverlays := [], duration := 2 },
   { speeches := [], videoOverlays := [], duration := 2 }]

/-- The one synthesized speech clip: 3.0 seconds of audio. -/
def c1sd : List SpeechClip := [{ duration := 3, audio_clip := some 0 }]

/-- Fade transition of 0.8 seconds. -/
def c1tr : Transition := { type := .fade, duration := 4/5 }

/-- No overlay videos are used in the scenario. -/
def c1env : String → ℚ := fun _ => 0

/-- The timeline the compositor actually produces on §8's scenario. -/
def c1tl : Timeline :=
  { video_clips :=
      [{ source := .image 0, start := 0, duration := 14/5, layer := 0,
         pos := Option.none, resizeParam := Option.none,
         resizeFull := some (1920, 1080), fadeIn := Option.none, timeMirror := false },
       { source := .image 1, start := 2, duration := 14/5, layer := 0,
         pos := Option.none, resizeParam := Option.none,
         resizeFull := some (1920, 1080), fadeIn := some (4/5), timeMirror := false }],
    audio_clips := [{ handle := 0, start := 0 }] }

/-- C1 (counterexample): on §8's concrete scenario the compositor does
NOT extend slide 1 to 3.2 s: the second base clip starts at `t = 2`,
not at `t = 3.2 = 16/5` as the claim states. -/
theorem claim_C1_counterexample :
    compose_video_clip c1slides [0, 1] c1sd c1env c1tr (1/5) (1920, 1080) = .ok c1tl ∧
    c1tl.video_clips.map VisualClip.start = [0, 2] ∧ (2 : ℚ) ≠ 16/5 := by
  refine ⟨?_, by norm_num [c1tl], by norm_num⟩
  norm_num [compose_video_clip, composeAux, slideStep, overlayLoop, audioLoop,
    nextHasSpeeches, c1slides, c1sd, c1tr, c1env, c1tl]
  intro h
  exact absurd h (by decide)

/-- C1 (amended): on §8's scenario, slide 1's final duration is 2.0
(the extension does not fire because slide 1 is not last and slide 2 has
no narration, so the backlog of 1.2 carries forward); slide 1's audio
clip starts at `t = 0`; slide 2's base clip starts at `t = 2.0`, has a
fade-in of 0.8 and spans `[2.0, 2.0 + 2.0 + 0.8)` (clip length
`14/5 = 2.8`). -/
theorem claim_C1 :
    compose_video_clip c1slides [0, 1] c1sd c1env c1tr (1/5) (1920, 1080) = .ok c1tl ∧
    c1tl.audio_clips = [{ handle := 0, start := 0 }] ∧
    c1tl.video_clips.map (fun c => (c.start, c.duration, c.fadeIn)) =
      [(0, 14/5, Option.none), (2, 14/5, some (4/5))] := by
  refine ⟨?_, by norm_num [c1tl], by norm_num [c1tl]⟩
  norm_num [compose_video_clip, composeAux, slideStep, overlayLoop, audioLoop,
    nextHasSpeeches, c1slides, c1sd, c1tr, c1env, c1tl]
  intro h
  exact absurd h (by decide)

/-- C6 (counterexample): `dimension_to_absolute` truncates, it does not
round: for the percent value `0.19%` on a canvas dimension of 1000 the
code yields `int(1.9) = 1` while `round(1.9) = 2`. -/
theorem claim_C6_counterexample :
    dimension_to_absolute (.pct (19/100)) 1000 = some 1 ∧
    round ((1000 : ℚ) * (19/100) / 100) = 2 ∧ (1 : ℤ) ≠ 2 := by
  refine ⟨by norm_num [dimension_to_absolute, pyTrunc], ?_, by decide⟩
  rw [round_eq]
  norm_num

/-- C6 (amended): `resolve_dimension` returns unset for `none`, and
otherwise the value truncated toward zero (Python `int()`), i.e. the
floor for the nonnegative values arising here: `⌊canvas * pct / 100⌋`
for a percent string and `⌊v⌋` for a numeric literal — not `round`. -/
theorem claim_C6 (p v : ℚ) (reference : ℤ)
    (hp : 0 ≤ (reference : ℚ) * p / 100) (hv : 0 ≤ v) :
    dimension_to_absolute .noneD reference = Option.none ∧
    dimension_to_absolute (.pct p) reference = some ⌊(reference : ℚ) * p / 100⌋ ∧
    dimension_to_absolute (.num v) reference = some ⌊v⌋ ∧
    dimension_to_absolute (.strNum v) reference = some ⌊v⌋ := by
  refine ⟨rfl, ?_, ?_, ?_⟩ <;> simp [dimension_to_absolute, pyTrunc, hp, hv]

/-- Witness for C6 at `0.19%` of 1000 and the literal `3.5`. -/
theorem claim_C6_witness :
    (0 ≤ (1000 : ℚ) * (19/100) / 100) ∧ (0 ≤ (7/2 : ℚ)) ∧
    dimension_to_absolute (.pct (19/100)) 1000 = some ⌊(1000 : ℚ) * (19/100) / 100⌋ ∧
    dimension_to_absolute (.num (7/2)) 1000 = some ⌊(7/2 : ℚ)⌋ :=
  ⟨by norm_num, by norm_num,
   (claim_C6 (19/100) (7/2) 1000 (by norm_num) (by norm_num)).2.1,
   (claim_C6 (19/100) (7/2) 1000 (by norm_num) (by norm_num)).2.2.1⟩

/-- C9: with no outstanding backlog, a silent placeholder (`duration 0`,
absent handle) advances the cursor by one, emits nothing and adds 0 to
the slide's narration total; a non-silent clip advances the cursor,
emits a clip starting at `time_played + total` and adds
`duration + audio_gap` to the total. -/
theorem claim_C9 (speech_data : List SpeechClip) (audio_gap time_played : ℚ)
    (s : String) (rest : List String) (audio_started : ℕ) (total : ℚ)
    (acc : List AudioClip) :
    (speech_data[audio_started]? = some { duration := 0, audio_clip := Option.none } →
      audioLoop speech_data audio_gap time_played (s :: rest) 0 audio_started total acc =
        audioLoop speech_data audio_gap time_played rest 0 (audio_started + 1) total acc) ∧
    (∀ (d : ℚ) (hndl : ℕ),
      speech_data[audio_started]? = some { duration := d, audio_clip := some hndl } →
      audioLoop speech_data audio_gap time_played (s :: rest) 0 audio_started total acc =
        audioLoop speech_data audio_gap time_played rest 0 (audio_started + 1)
          (total + (d + audio_gap))
          (acc ++ [{ handle := hndl, start := time_played + total }])) := by
  constructor
  · intro h
    simp [audioLoop, h]
  · intro d hndl h
    simp [audioLoop, h]

/-- The speech data used by the C9 witness: a silent placeholder
followed by a 3-second clip. -/
def c9sd : List SpeechClip :=
  [{ duration := 0, audio_clip := Option.none }, { duration := 3, audio_clip := some 7 }]

/-- Witness for C9: the silent placeholder at cursor 0 is skipped. -/
theorem claim_C9_witness :
    c9sd[0]? = some { duration := 0, audio_clip := Option.none } ∧
    audioLoop c9sd (1/5) 10 ["a", "b"] 0 0 0 [] =
      audioLoop c9sd (1/5) 10 ["b"] 0 1 0 [] :=
  ⟨by decide, (claim_C9 c9sd (1/5) 10 "a" ["b"] 0 0 []).1 (by decide)⟩

/-- C10: when exactly one of the overlay's width/height resolves to a
positive integer and the other resolves to `None`, the resize branch is
entered and the bare `> 0` comparison on the unset dimension raises an
uncaught `TypeError`: the overlay scheduling aborts instead of resizing
by the single given dimension. -/
theorem claim_C10 (env : String → ℚ) (size : ℤ × ℤ) (num_slides : ℕ)
    (time_played : ℚ) (video_overlay : OverlayCue)
    (hrange : (max (video_overlay.start_from - 1) 0).toNat < num_slides)
    (hone :
      ((∃ a, dimension_to_absolute video_overlay.width size.1 = some a ∧ 0 < a) ∧
        dimension_to_absolute video_overlay.height size.2 = Option.none) ∨
      (dimension_to_absolute video_overlay.width size.1 = Option.none ∧
        (∃ b, dimension_to_absolute video_overlay.height size.2 = some b ∧ 0 < b))) :
    overlayStep env size num_slides time_played video_overlay = .error .typeError := by
  rcases hone with ⟨⟨a, hw, ha⟩, hh⟩ | ⟨hw, ⟨b, hh, hb⟩⟩
  · simp [overlayStep, hrange, resizeParams, hw, hh, optPos, pyGtZero, ha]
  · simp [overlayStep, hrange, resizeParams, hw, hh, optPos, pyGtZero, hb]

/-- The overlay cue of the C10 witness: width `50%`, height unset. -/
def c10cue : OverlayCue :=
  { start_from := 1, video := "v", x := .noneD, y := .noneD,
    width := .pct 50, height := .noneD, reverse := false }

/-- Witness for C10: width `50%` of 1920 resolves to 960 > 0, height is
unset, and the overlay step aborts with the type error. -/
theorem claim_C10_witness :
    ((max (c10cue.start_from - 1) 0).toNat < 1) ∧
    dimension_to_absolute c10cue.width (1920, 1080).1 = some 960 ∧
    dimension_to_absolute c10cue.height (1920, 1080).2 = Option.none ∧
    overlayStep (fun _ => 1) (1920, 1080) 1 0 c10cue = .error .typeError :=
  ⟨by decide, by norm_num [c10cue, dimension_to_absolute, pyTrunc],
   by norm_num [c10cue, dimension_to_absolute],
   claim_C10 (fun _ => 1) (1920, 1080) 1 0 c10cue (by decide)
     (Or.inl ⟨⟨960, by norm_num [c10cue, dimension_to_absolute, pyTrunc], by norm_num⟩,
       by norm_num [c10cue, dimension_to_absolute]⟩)⟩

/-- With zero backlog the narration loop never raises the
"audios are not finished" assertion, whatever the speech data. -/
theorem audioLoop_zero_ne (speech_data : List SpeechClip) (audio_gap time_played : ℚ) :
    ∀ (speeches : List String) (audio_started : ℕ) (total : ℚ) (acc : List AudioClip),
    audioLoop speech_data audio_gap time_played speeches 0 audio_started total acc ≠
      .error .audiosNotFinished := by
  intro speeches
  induction speeches with
  | nil => intro started total acc; simp [audioLoop]
  | cons s rest ih =>
    intro started total acc
    simp only [audioLoop]
    rw [if_neg (by simp)]
    cases h : speech_data[started]? with
    | none => simp
    | some clip =>
      cases hc : clip.audio_clip with
      | none => simpa [hc] using ih (started + 1) total acc
      | some hndl =>
        simpa [hc] using ih (started + 1) (total + (clip.duration + audio_gap))
          (acc ++ [{ handle := hndl, start := time_played + total }])

/-- The narration loop fails with the "audios are not finished"
assertion exactly when the slide has at least one speech cue and the
backlog is strictly positive. -/
theorem audioLoop_finished_iff (speech_data : List SpeechClip)
    (audio_gap time_played : ℚ) (speeches : List String) (still_requied : ℚ)
    (audio_started : ℕ) (total : ℚ) (acc : List AudioClip)
    (hsr : 0 ≤ still_requied) :
    audioLoop speech_data audio_gap time_played speeches still_requied audio_started
        total acc = .error .audiosNotFinished ↔
      speeches ≠ [] ∧ 0 < still_requied := by
  cases speeches with
  | nil => simp [audioLoop]
  | cons s rest =>
    by_cases h0 : still_requied = 0
    · subst h0
      have hne := audioLoop_zero_ne speech_data audio_gap time_played (s :: rest)
        audio_started total acc
      simp [hne]
    · have hpos : 0 < still_requied := lt_of_le_of_ne hsr (Ne.symm h0)
      simp only [audioLoop]
      rw [if_pos h0]
      simp [hpos]

/-- C3: the per-slide walk is fatal on a slide exactly when the slide's
speech list is non-empty while the carried backlog is strictly positive;
a slide with no speeches never triggers this failure, whatever the
backlog. -/
theorem claim_C3 (slides_full : List PhysicalSlide) (speech_data : List SpeechClip)
    (env : String → ℚ) (transition : Transition) (audio_gap : ℚ) (size : ℤ × ℤ)
    (physical_slide : PhysicalSlide) (img i : ℕ) (st : ComposeState)
    (overlay_clips : List VisualClip) (overlay_length : ℚ)
    (hov : overlayLoop env size slides_full.length st.time_played
      physical_slide.videoOverlays 0 [] = .ok (overlay_clips, overlay_length))
    (hsr : 0 ≤ st.still_requied) :
    slideStep slides_full speech_data env transition audio_gap size physical_slide
        img i st = .error .audiosNotFinished ↔
      physical_slide.speeches ≠ [] ∧ 0 < st.still_requied := by
  have key := audioLoop_finished_iff speech_data audio_gap st.time_played
    physical_slide.speeches st.still_requied st.audio_started 0 [] hsr
  simp only [slideStep, hov]
  cases haud : audioLoop speech_data audio_gap st.time_played physical_slide.speeches
      st.still_requied st.audio_started 0 [] with
  | error e =>
    rw [haud] at key
    simpa using key
  | ok r =>
    obtain ⟨a, b, c⟩ := r
    rw [haud] at key
    constructor
    · intro h
      exact absurd h (by simp)
    · intro h
      exact absurd (key.mpr h) (by simp)

/-- The slide of the C3 witness: one speech cue. -/
def c3slide : PhysicalSlide := { speeches := ["x"], videoOverlays := [], duration := 2 }

/-- The entry state of the C3 witness: a backlog of 1 second. -/
def c3st : ComposeState :=
  { still_requied := 1, time_played := 0, audio_started := 0,
    video_clips := [], audio_clips := [] }

/-- Witness for C3: with backlog 1 and a narrated slide the step fails
with the narration assertion. -/
theorem claim_C3_witness :
    overlayLoop (fun _ => 0) (1920, 1080) [c3slide].length c3st.time_played
      c3slide.videoOverlays 0 [] = .ok ([], 0) ∧
    (0 : ℚ) ≤ c3st.still_requied ∧
    slideStep [c3slide] [] (fun _ => 0) { type := .fade, duration := 4/5 } (1/5)
      (1920, 1080) c3slide 0 0 c3st = .error .audiosNotFinished :=
  ⟨by norm_num [overlayLoop, c3slide, c3st], by norm_num [c3st],
   (claim_C3 [c3slide] [] (fun _ => 0) { type := .fade, duration := 4/5 } (1/5)
     (1920, 1080) c3slide 0 0 c3st [] 0
     (by norm_num [overlayLoop, c3slide, c3st]) (by norm_num [c3st])).mpr
     ⟨by simp [c3slide], by norm_num [c3st]⟩⟩

/-- C2: in one step of the walk, with backlog-plus-own-narration
`sr₁ = still_requied + total`: if the slide is last or the next slide
has narration, the final duration (the amount `time_played` advances) is
`max (max declared overlay_length) (sr₁ + audio_gap)`; otherwise it is
just `max declared overlay_length` (no extension); and the new backlog
is `max 0 (sr₁ - final_duration)`, hence never negative. -/
theorem claim_C2 (slides_full : List PhysicalSlide) (speech_data : List SpeechClip)
    (env : String → ℚ) (transition : Transition) (audio_gap : ℚ) (size : ℤ × ℤ)
    (physical_slide : PhysicalSlide) (img i : ℕ) (st st' : ComposeState)
    (overlay_clips : List VisualClip) (overlay_length : ℚ)
    (audio_started : ℕ) (total : ℚ) (new_audio : List AudioClip)
    (hov : overlayLoop env size slides_full.length st.time_played
      physical_slide.videoOverlays 0 [] = .ok (overlay_clips, overlay_length))
    (hau : audioLoop speech_data audio_gap st.time_played physical_slide.speeches
      st.still_requied st.audio_started 0 [] = .ok (audio_started, total, new_audio))
    (hstep : slideStep slides_full speech_data env transition audio_gap size
      physical_slide img i st = .ok st') :
    ((i + 1 = slides_full.length ∨ nextHasSpeeches slides_full i) →
      st'.time_played - st.time_played =
        max (max physical_slide.duration overlay_length)
          (st.still_requied + total + audio_gap)) ∧
    (¬ (i + 1 = slides_full.length ∨ nextHasSpeeches slides_full i) →
      st'.time_played - st.time_played = max physical_slide.duration overlay_length) ∧
    st'.still_requied =
      max 0 (st.still_requied + total - (st'.time_played - st.time_played)) ∧
    0 ≤ st'.still_requied := by
  simp only [slideStep, hov, hau, Except.ok.injEq] at hstep
  subst hstep
  refine ⟨fun hc => ?_, fun hc => ?_, ?_, ?_⟩
  · simp only [if_pos hc, add_sub_cancel_left]
  · simp only [if_neg hc, add_sub_cancel_left]
  · simp only [add_sub_cancel_left]
  · exact le_max_left 0 _

/-- The slide of the C2 witness: one speech cue of 3 seconds. -/
def w2slide : PhysicalSlide := { speeches := ["x"], videoOverlays := [], duration := 2 }

/-- The speech data of the C2 witness. -/
def w2sd : List SpeechClip := [{ duration := 3, audio_clip := some 0 }]

/-- The zero entry state of the C2 witness. -/
def w2st0 : ComposeState :=
  { still_requied := 0, time_played := 0, audio_started := 0,
    video_clips := [], audio_clips := [] }

/-- The state after the C2 witness step: the slide (last in its list) is
extended to `max 2 (3 + 1/5 + 1/5) = 17/5` and the backlog decays to 0. -/
def w2st' : ComposeState :=
  { still_requied := 0, time_played := 17/5, audio_started := 1,
    video_clips :=
      [{ source := .image 0, start := 0, duration := 21/5, layer := 0,
         pos := Option.none, resizeParam := Option.none,
         resizeFull := some (1920, 1080), fadeIn := Option.none, timeMirror := false }],
    audio_clips := [{ handle := 0, start := 0 }] }

/-- Witness for C2 on a one-slide walk with narration. -/
theorem claim_C2_witness :
    overlayLoop (fun _ => 0) (1920, 1080) [w2slide].length w2st0.time_played
      w2slide.videoOverlays 0 [] = .ok ([], 0) ∧
    audioLoop w2sd (1/5) w2st0.time_played w2slide.speeches w2st0.still_requied
      w2st0.audio_started 0 [] = .ok (1, 16/5, [{ handle := 0, start := 0 }]) ∧
    slideStep [w2slide] w2sd (fun _ => 0) { type := .fade, duration := 4/5 } (1/5)
      (1920, 1080) w2slide 0 0 w2st0 = .ok w2st' ∧
    w2st'.still_requied =
      max 0 (w2st0.still_requied + 16/5 - (w2st'.time_played - w2st0.time_played)) ∧
    0 ≤ w2st'.still_requied :=
  ⟨by norm_num [overlayLoop, w2slide, w2st0],
   by norm_num [audioLoop, w2sd, w2slide, w2st0],
   by norm_num [slideStep, overlayLoop, audioLoop, nextHasSpeeches, w2sd, w2slide,
     w2st0, w2st'],
   (claim_C2 [w2slide] w2sd (fun _ => 0) { type := .fade, duration := 4/5 } (1/5)
     (1920, 1080) w2slide 0 0 w2st0 w2st' [] 0 1 (16/5) [{ handle := 0, start := 0 }]
     (by norm_num [overlayLoop, w2slide, w2st0])
     (by norm_num [audioLoop, w2sd, w2slide, w2st0])
     (by norm_num [slideStep, overlayLoop, audioLoop, nextHasSpeeches, w2sd, w2slide,
       w2st0, w2st'])).2.2.1,
   (claim_C2 [w2slide] w2sd (fun _ => 0) { type := .fade, duration := 4/5 } (1/5)
     (1920, 1080) w2slide 0 0 w2st0 w2st' [] 0 1 (16/5) [{ handle := 0, start := 0 }]
     (by norm_num [overlayLoop, w2slide, w2st0])
     (by norm_num [audioLoop, w2sd, w2slide, w2st0])
     (by norm_num [slideStep, overlayLoop, audioLoop, nextHasSpeeches, w2sd, w2slide,
       w2st0, w2st'])).2.2.2⟩

/-! ## The normalizer: grouping completeness, duration reconciliation,
single-override enforcement -/

/-- In-place element update keeps the list length. -/
theorem listModify_length {α : Type*} (f : α → α) :
    ∀ (n : ℕ) (l : List α), (listModify f n l).length = l.length := by
  intro n l
  induction l generalizing n with
  | nil => simp [listModify]
  | cons a as ih =>
    cases n with
    | zero => simp [listModify]
    | succ m => simp [listModify, ih]

/-- Element-wise duration assignment keeps the list length. -/
theorem assignDurations_length :
    ∀ (slides : List PhysicalSlide) (ds : List ℚ),
    (assignDurations slides ds).length = slides.length := by
  intro slides
  induction slides with
  | nil => intro ds; cases ds <;> simp [assignDurations]
  | cons s ss ih =>
    intro ds
    cases ds with
    | nil => simp [assignDurations]
    | cons d rest => simp [assignDurations, ih]

/-- Directive replay keeps the number of physical slides. -/
theorem processLogicalAux_length (physical_count : ℕ) :
    ∀ (dirs : List Directive) (slides : List PhysicalSlide) (durSet : Bool)
      (out : List PhysicalSlide),
    processLogicalAux physical_count dirs slides durSet = .ok out →
      out.length = slides.length := by
  intro dirs
  induction dirs with
  | nil =>
    intro slides durSet out h
    simp only [processLogicalAux, Except.ok.injEq] at h
    rw [← h]
  | cons item rest ih =>
    intro slides durSet out h
    cases item with
    | speech sf body =>
      simp only [processLogicalAux] at h
      split at h
      · rw [ih _ _ _ h, listModify_length]
      · exact absurd h (by simp)
    | durationLogical v =>
      simp only [processLogicalAux] at h
      split at h
      · exact absurd h (by simp)
      · rw [ih _ _ _ h, List.length_map]
    | durationPhysical ds =>
      simp only [processLogicalAux] at h
      split at h
      · exact absurd h (by simp)
      · split at h
        · exact absurd h (by simp)
        · rw [ih _ _ _ h, assignDurations_length]
    | videoOverlay cue =>
      simp only [processLogicalAux] at h
      split at h
      · rw [ih _ _ _ h, listModify_length]
      · exact absurd h (by simp)
    | unknownDir tag => exact absurd h (by simp [processLogicalAux])

/-- A resolved logical slide has exactly `physical_count` physical
slides. -/
theorem processLogical_length (duration_physical : ℚ) (dirs : List Directive)
    (physical_count : ℕ) (out : List PhysicalSlide)
    (h : processLogical duration_physical dirs physical_count = .ok out) :
    out.length = physical_count := by
  have := processLogicalAux_length physical_count dirs _ false out h
  simpa using this

/-- Sum of physical counts produced by the grouping loop: accumulator
sum plus one per further non-hidden page. -/
theorem groupAux_sum :
    ∀ (pages : List PageRecord) (acc groups : List (List Directive × ℕ)),
    groupAux pages acc = .ok groups →
    (groups.map Prod.snd).sum =
      (acc.map Prod.snd).sum + (pages.filter fun p => !p.hidden).length := by
  intro pages
  induction pages with
  | nil =>
    intro acc groups h
    simp only [groupAux, Except.ok.injEq] at h
    subst h
    simp [List.sum_reverse]
  | cons p ps ih =>
    intro acc groups h
    simp only [groupAux] at h
    by_cases hh : p.hidden = true
    · rw [if_pos hh] at h
      rw [ih _ _ h]
      simp [List.filter_cons, hh]
    · rw [if_neg hh] at h
      rw [Bool.not_eq_true] at hh
      by_cases ho : p.overlay = 0
      · rw [if_pos ho] at h
        have := ih _ _ h
        rw [this]
        simp only [List.map_cons, List.sum_cons, List.filter_cons, hh,
          Bool.not_false, if_pos]
        simp
        omega
      · rw [if_neg ho] at h
        cases acc with
        | nil => exact absurd h (by simp)
        | cons hd tl =>
          obtain ⟨d, c⟩ := hd
          have := ih _ _ h
          rw [this]
          simp only [List.map_cons, List.sum_cons, List.filter_cons, hh,
            Bool.not_false, if_pos]
          simp
          omega

/-- The flat normalizer output is the concatenation, in document order,
of one block per logical slide whose length is that slide's physical
count. -/
theorem processAll_parts (duration_physical : ℚ) :
    ∀ (groups : List (List Directive × ℕ)) (slides : List PhysicalSlide),
    processAll duration_physical groups = .ok slides →
    ∃ parts : List (List PhysicalSlide),
      slides = parts.flatten ∧ parts.map List.length = groups.map Prod.snd := by
  intro groups
  induction groups with
  | nil =>
    intro slides h
    simp only [processAll, Except.ok.injEq] at h
    subst h
    exact ⟨[], by simp, by simp⟩
  | cons g rest ih =>
    obtain ⟨dirs, pc⟩ := g
    intro slides h
    cases hp : processLogical duration_physical dirs pc with
    | error e => simp [processAll, hp] at h
    | ok this =>
      cases hr : processAll duration_physical rest with
      | error e => simp [processAll, hp, hr] at h
      | ok others =>
        simp only [processAll, hp, hr, Except.ok.injEq] at h
        subst h
        obtain ⟨parts, hj, hl⟩ := ih others hr
        refine ⟨this :: parts, by simp [hj], ?_⟩
        simp [hl, processLogical_length duration_physical dirs pc this hp]

/-- C4: when normalization succeeds, it produces exactly one
PhysicalSlide per non-hidden PageRecord (hidden records produce none and
count toward no physical count: the physical counts sum to the number of
non-hidden records), and the flat output is the in-order concatenation
of per-logical-slide blocks of exactly those lengths. -/
theorem claim_C4 (pages : List PageRecord) (duration_physical : ℚ)
    (groups : List (List Directive × ℕ)) (slides : List PhysicalSlide)
    (hg : groupPages pages = .ok groups)
    (hq : query pages duration_physical = .ok slides) :
    slides.length = (pages.filter fun p => !p.hidden).length ∧
    (groups.map Prod.snd).sum = (pages.filter fun p => !p.hidden).length ∧
    ∃ parts : List (List PhysicalSlide),
      slides = parts.flatten ∧ parts.map List.length = groups.map Prod.snd := by
  have hsum := groupAux_sum pages [] groups hg
  simp only [List.map_nil, List.sum_nil, zero_add] at hsum
  have hpa : processAll duration_physical groups = .ok slides := by
    simp only [query, hg] at hq
    exact hq
  obtain ⟨parts, hj, hl⟩ := processAll_parts duration_physical groups slides hpa
  refine ⟨?_, hsum, ⟨parts, hj, hl⟩⟩
  rw [hj, List.length_flatten, hl, hsum]

/-- The pages of the C4 witness: a logical slide opener, a hidden page,
and a continuation overlay page. -/
def w4pages : List PageRecord :=
  [{ hidden := false, overlay := 0, t2s := [] },
   { hidden := true, overlay := 0, t2s := [] },
   { hidden := false, overlay := 1, t2s := [] }]

/-- Witness for C4: three pages, one hidden; one logical slide of
physical count 2; two physical slides out. -/
theorem claim_C4_witness :
    groupPages w4pages = .ok [([], 2)] ∧
    query w4pages 2 =
      .ok (List.replicate 2 { speeches := [], videoOverlays := [], duration := 2 }) ∧
    (List.replicate 2
        ({ speeches := [], videoOverlays := [], duration := 2 } : PhysicalSlide)).length =
      (w4pages.filter fun p => !p.hidden).length :=
  ⟨by norm_num [groupPages, groupAux, w4pages],
   by norm_num [query, groupPages, groupAux, processAll, processLogical,
     processLogicalAux, w4pages, List.replicate],
   (claim_C4 w4pages 2 [([], 2)] _
     (by norm_num [groupPages, groupAux, w4pages])
     (by norm_num [query, groupPages, groupAux, processAll, processLogical,
       processLogicalAux, w4pages, List.replicate])).1⟩

/-- Element-wise duration assignment with a list of matching length
installs exactly that duration list. -/
theorem assignDurations_map :
    ∀ (slides : List PhysicalSlide) (ds : List ℚ), ds.length = slides.length →
    (assignDurations slides ds).map PhysicalSlide.duration = ds := by
  intro slides
  induction slides with
  | nil =>
    intro ds h
    cases ds with
    | nil => simp [assignDurations]
    | cons d r => simp at h
  | cons s ss ih =>
    intro ds h
    cases ds with
    | nil => simp at h
    | cons d r =>
      simp only [assignDurations, List.map_cons, List.cons.injEq]
      exact ⟨trivial, ih r (by simpa using h)⟩

/-- A lone `T2s-duration-physical` directive installs exactly the
reconciled duration list. -/
theorem processLogical_durationPhysical (duration_physical : ℚ) (ds : List ℚ)
    (physical_count : ℕ) (r : List ℚ) (w : Bool)
    (hrec : reconcileDurations ds physical_count = .ok (r, w))
    (hlen : r.length = physical_count) :
    (processLogical duration_physical [Directive.durationPhysical ds]
        physical_count).map (fun out => out.map PhysicalSlide.duration) = .ok r := by
  have hmap :
      (assignDurations
        (List.replicate physical_count
          { speeches := [], videoOverlays := [], duration := duration_physical })
        r).map PhysicalSlide.duration = r :=
    assignDurations_map _ _ (by simp [hlen])
  simp [processLogical, processLogicalAux, hrec, Except.map, hmap]

/-- C5 (amended): for a non-empty override list (an empty one crashes,
see the counterexample) and `physical_count ≥ 1`, reconciliation always
yields a list of length exactly `physical_count`, that list is installed
as the slides' durations, and: a length-1 list is replicated without
warning; a shorter list of length > 1 is padded with its last value with
a warning; a longer list is truncated with a warning. -/
theorem claim_C5 (durations : List ℚ) (physical_count : ℕ) (duration_physical : ℚ)
    (hne : durations ≠ []) (hpc : 1 ≤ physical_count) :
    ∃ r w, reconcileDurations durations physical_count = .ok (r, w) ∧
      r.length = physical_count ∧
      (processLogical duration_physical [Directive.durationPhysical durations]
          physical_count).map (fun out => out.map PhysicalSlide.duration) = .ok r ∧
      (durations.length = 1 →
        w = false ∧ r = List.replicate physical_count (durations.getLast hne)) ∧
      (1 < durations.length → durations.length < physical_count →
        w = true ∧
        r = durations ++
          List.replicate (physical_count - durations.length) (durations.getLast hne)) ∧
      (physical_count < durations.length → w = true ∧ r = durations.take physical_count) := by
  have hlast : durations.getLast? = some (durations.getLast hne) :=
    List.getLast?_eq_getLast_of_ne_nil hne
  by_cases hlt : durations.length < physical_count
  · refine ⟨durations ++
        List.replicate (physical_count - durations.length) (durations.getLast hne),
      decide (durations.length ≠ 1), ?_, ?_, ?_, ?_, ?_, ?_⟩
    · unfold reconcileDurations
      rw [if_pos hlt, hlast]
    · simp only [List.length_append, List.length_replicate]
      omega
    · refine processLogical_durationPhysical _ _ _ _
        (decide (durations.length ≠ 1)) ?_ ?_
      · unfold reconcileDurations
        rw [if_pos hlt, hlast]
      · simp only [List.length_append, List.length_replicate]
        omega
    · intro h1
      obtain ⟨a, ha⟩ := List.length_eq_one.mp h1
      subst ha
      have hg : [a].getLast hne = a := rfl
      refine ⟨by simp, ?_⟩
      rw [hg]
      have hrep : physical_count = 1 + (physical_count - 1) := by omega
      conv_rhs => rw [hrep, List.replicate_add]
      simp
    · intro h1 h2
      refine ⟨?_, rfl⟩
      simp only [decide_eq_true_eq]
      omega
    · intro h
      exfalso
      omega
  · by_cases hgt : physical_count < durations.length
    · refine ⟨durations.take physical_count, true, ?_, ?_, ?_, ?_, ?_, ?_⟩
      · unfold reconcileDurations
        rw [if_neg hlt, if_pos hgt]
      · simp only [List.length_take]
        omega
      · refine processLogical_durationPhysical _ _ _ _ true ?_ ?_
        · unfold reconcileDurations
          rw [if_neg hlt, if_pos hgt]
        · simp only [List.length_take]
          omega
      · intro h1
        exfalso
        omega
      · intro h1 h2
        exfalso
        omega
      · intro h
        exact ⟨rfl, rfl⟩
    · have heq : durations.length = physical_count := by omega
      refine ⟨durations, false, ?_, heq, ?_, ?_, ?_, ?_⟩
      · unfold reconcileDurations
        rw [if_neg hlt, if_neg hgt]
      · exact processLogical_durationPhysical _ _ _ _ false
          (by unfold reconcileDurations; rw [if_neg hlt, if_neg hgt]) heq
      · intro h1
        refine ⟨rfl, ?_⟩
        obtain ⟨a, ha⟩ := List.length_eq_one.mp h1
        subst ha
        have hg : [a].getLast hne = a := rfl
        rw [hg]
        have hone : physical_count = 1 := by omega
        rw [hone]
        simp
      · intro h1 h2
        exfalso
        omega
      · intro h
        exfalso
        omega

/-- The pages of the C5 counterexample: one logical slide of physical
count 3 carrying an empty `T2s-duration-physical` list. -/
def c5pages : List PageRecord :=
  [{ hidden := false, overlay := 0, t2s := [Directive.durationPhysical []] },
   { hidden := false, overlay := 1, t2s := [] },
   { hidden := false, overlay := 2, t2s := [] }]

/-- C5 (counterexample): an empty override list differs in length from
`physical_count = 3`, yet normalization does not assign three durations:
it aborts (the `durations[-1]` lookup on an empty list). -/
theorem claim_C5_counterexample :
    reconcileDurations [] 3 = .error .emptyDurations ∧
    query c5pages 2 = .error .emptyDurations := by
  constructor
  · norm_num [reconcileDurations]
  · norm_num [query, groupPages, groupAux, processAll, processLogical,
      processLogicalAux, reconcileDurations, c5pages]

/-- Witness for C5 with `physical_count = 3` and the list `[5.0]`:
replicated to `[5, 5, 5]` with no warning. -/
theorem claim_C5_witness :
    (([(5 : ℚ)]) ≠ []) ∧ (1 ≤ 3) ∧
    reconcileDurations [(5 : ℚ)] 3 = .ok ([5, 5, 5], false) := by
  refine ⟨by simp, by norm_num, ?_⟩
  obtain ⟨r, w, hrec, hlen, hmap, h1, h2, h3⟩ :=
    claim_C5 [(5 : ℚ)] 3 2 (by simp) (by norm_num)
  obtain ⟨hw, hr⟩ := h1 (by simp)
  rw [hw, hr] at hrec
  simpa [List.replicate, List.getLast_singleton] using hrec

/-- Is this directive a duration override (logical or physical)? -/
def isDurationOverride : Directive → Bool
  | .durationLogical _ => true
  | .durationPhysical _ => true
  | _ => false

/-- Number of duration-override directives in a directive list. -/
def countOverrides (dirs : List Directive) : ℕ :=
  (dirs.filter isDurationOverride).length

/-- Reconciliation can only fail on the empty list. -/
theorem reconcileDurations_error (ds : List ℚ) (pc : ℕ) :
    ∀ e, reconcileDurations ds pc = .error e → e = .emptyDurations := by
  intro e h
  simp only [reconcileDurations] at h
  split at h
  · cases hl : ds.getLast? with
    | none => rw [hl] at h; simpa using h.symm
    | some a => rw [hl] at h; exact absurd h (by simp)
  · split at h <;> exact absurd h (by simp)

/-- `isDurationOverride` on each directive constructor. -/
theorem isDurationOverride_speech (sf : ℤ) (body : String) :
    isDurationOverride (.speech sf body) = false := rfl

/-- `isDurationOverride` on a logical duration override. -/
theorem isDurationOverride_dl (v : ℚ) :
    isDurationOverride (.durationLogical v) = true := rfl

/-- `isDurationOverride` on a physical duration override. -/
theorem isDurationOverride_dp (v : List ℚ) :
    isDurationOverride (.durationPhysical v) = true := rfl

/-- `isDurationOverride` on an overlay cue. -/
theorem isDurationOverride_ov (c : OverlayCue) :
    isDurationOverride (.videoOverlay c) = false := rfl

/-- A duration-override directive at the head bumps the override count. -/
theorem countOverrides_cons_true (d : Directive) (dirs : List Directive)
    (h : isDurationOverride d = true) :
    countOverrides (d :: dirs) = countOverrides dirs + 1 := by
  simp [countOverrides, List.filter_cons, h]

/-- A non-override directive at the head keeps the override count. -/
theorem countOverrides_cons_false (d : Directive) (dirs : List Directive)
    (h : isDurationOverride d = false) :
    countOverrides (d :: dirs) = countOverrides dirs := by
  simp [countOverrides, List.filter_cons, h]

/-- Successful directive replay bounds the number of overrides: at most
one, counting an already-set flag. -/
theorem processLogicalAux_ok_count (physical_count : ℕ) :
    ∀ (dirs : List Directive) (slides : List PhysicalSlide) (durSet : Bool)
      (out : List PhysicalSlide),
    processLogicalAux physical_count dirs slides durSet = .ok out →
      countOverrides dirs + (if durSet then 1 else 0) ≤ 1 := by
  intro dirs
  induction dirs with
  | nil =>
    intro slides durSet out h
    cases durSet <;> simp [countOverrides]
  | cons item rest ih =>
    intro slides durSet out h
    cases item with
    | speech sf body =>
      simp only [processLogicalAux] at h
      split at h
      · have := ih _ _ _ h
        rwa [countOverrides_cons_false _ _ (isDurationOverride_speech sf body)]
      · exact absurd h (by simp)
    | durationLogical v =>
      cases durSet with
      | true => simp [processLogicalAux] at h
      | false =>
        simp only [processLogicalAux] at h
        rw [if_neg (by simp)] at h
        have := ih _ _ _ h
        rw [if_pos rfl] at this
        rw [countOverrides_cons_true _ _ (isDurationOverride_dl v), if_neg (by simp)]
        omega
    | durationPhysical ds =>
      cases durSet with
      | true => simp [processLogicalAux] at h
      | false =>
        simp only [processLogicalAux] at h
        rw [if_neg (by simp)] at h
        cases hrec : reconcileDurations ds physical_count with
        | error e =>
          rw [hrec] at h
          exact absurd h (by simp)
        | ok pr =>
          obtain ⟨r, wfl⟩ := pr
          rw [hrec] at h
          have := ih _ _ _ h
          rw [if_pos rfl] at this
          rw [countOverrides_cons_true _ _ (isDurationOverride_dp ds), if_neg (by simp)]
          omega
    | videoOverlay cue =>
      simp only [processLogicalAux] at h
      split at h
      · have := ih _ _ _ h
        rwa [countOverrides_cons_false _ _ (isDurationOverride_ov cue)]
      · exact absurd h (by simp)
    | unknownDir tag => exact absurd h (by simp [processLogicalAux])

/-- The duplicate-override failure implies at least two overrides,
counting an already-set flag. -/
theorem processLogicalAux_err_count (physical_count : ℕ) :
    ∀ (dirs : List Directive) (slides : List PhysicalSlide) (durSet : Bool),
    processLogicalAux physical_count dirs slides durSet = .error .multipleDuration →
      2 ≤ countOverrides dirs + (if durSet then 1 else 0) := by
  intro dirs
  induction dirs with
  | nil =>
    intro slides durSet h
    exact absurd h (by simp [processLogicalAux])
  | cons item rest ih =>
    intro slides durSet h
    cases item with
    | speech sf body =>
      simp only [processLogicalAux] at h
      split at h
      · have := ih _ _ h
        rwa [countOverrides_cons_false _ _ (isDurationOverride_speech sf body)]
      · exact absurd h (by simp)
    | durationLogical v =>
      cases durSet with
      | true =>
        rw [countOverrides_cons_true _ _ (isDurationOverride_dl v), if_pos rfl]
        omega
      | false =>
        simp only [processLogicalAux] at h
        rw [if_neg (by simp)] at h
        have := ih _ _ h
        rw [if_pos rfl] at this
        rw [countOverrides_cons_true _ _ (isDurationOverride_dl v), if_neg (by simp)]
        omega
    | durationPhysical ds =>
      cases durSet with
      | true =>
        rw [countOverrides_cons_true _ _ (isDurationOverride_dp ds), if_pos rfl]
        omega
      | false =>
        simp only [processLogicalAux] at h
        rw [if_neg (by simp)] at h
        cases hrec : reconcileDurations ds physical_count with
        | error e =>
          have he := reconcileDurations_error ds physical_count e hrec
          subst he
          rw [hrec] at h
          simp at h
        | ok pr =>
          obtain ⟨r, wfl⟩ := pr
          rw [hrec] at h
          have := ih _ _ h
          rw [if_pos rfl] at this
          rw [countOverrides_cons_true _ _ (isDurationOverride_dp ds), if_neg (by simp)]
          omega
    | videoOverlay cue =>
      simp only [processLogicalAux] at h
      split at h
      · have := ih _ _ h
        rwa [countOverrides_cons_false _ _ (isDurationOverride_ov cue)]
      · exact absurd h (by simp)
    | unknownDir tag => exact absurd h (by simp [processLogicalAux])

/-- C8: a logical slide fails with the duplicate-override error only if
its directive list holds at least two duration-override directives (of
either kind), and with two or more such directives normalization never
succeeds. -/
theorem claim_C8 (duration_physical : ℚ) (dirs : List Directive)
    (physical_count : ℕ) :
    (processLogical duration_physical dirs physical_count =
        .error .multipleDuration → 2 ≤ countOverrides dirs) ∧
    (2 ≤ countOverrides dirs →
      ∀ out, processLogical duration_physical dirs physical_count ≠ .ok out) := by
  constructor
  · intro h
    have := processLogicalAux_err_count physical_count dirs _ false h
    simpa using this
  · intro h out hok
    have := processLogicalAux_ok_count physical_count dirs _ false out hok
    simp at this
    omega

/-- Witness for C8: two logical duration overrides on one logical slide
never normalize. -/
theorem claim_C8_witness :
    2 ≤ countOverrides [Directive.durationLogical 1, Directive.durationLogical 1] ∧
    processLogical 2 [Directive.durationLogical 1, Directive.durationLogical 1] 1 ≠
      .ok [{ speeches := [], videoOverlays := [], duration := 1 }] :=
  ⟨by simp [countOverrides, isDurationOverride],
   (claim_C8 2 [Directive.durationLogical 1, Directive.durationLogical 1] 1).2
     (by simp [countOverrides, isDurationOverride]) _⟩

/-! ## Timeline continuity and fade attachment (C7) -/

/-- A base (slide image) clip, as opposed to an overlay clip. -/
def isBaseClip (c : VisualClip) : Bool := c.layer == 0

/-- The base visual clip emitted for one slide. -/
def baseClip (img : ℕ) (t final : ℚ) (transition : Transition) (size : ℤ × ℤ)
    (i : ℕ) : VisualClip :=
  { source := .image img
    start := t
    duration := final + transition.duration
    layer := 0
    pos := Option.none
    resizeParam := Option.none
    resizeFull := some size
    fadeIn := if 0 < i ∧ transition.type = .fade then some transition.duration
              else Option.none
    timeMirror := false }

/-- The chain invariant of the base clips starting at slide index `i`
and clock `t`: each clip starts at the running clock, carries a fade-in
exactly when it is not the first slide and the transition is a fade, and
the clock advances by the clip length minus the trailing transition
overlap. -/
def baseFadeChain (transition : Transition) : ℕ → ℚ → List VisualClip → Prop
  | _, _, [] => True
  | i, t, c :: cs =>
      c.start = t ∧
      c.fadeIn = (if 0 < i ∧ transition.type = .fade then some transition.duration
                  else Option.none) ∧
      baseFadeChain transition (i + 1) (t + (c.duration - transition.duration)) cs

/-- Overlay clips are emitted on layer 2. -/
theorem overlayStep_layer (env : String → ℚ) (size : ℤ × ℤ) (num_slides : ℕ)
    (time_played : ℚ) (cue : OverlayCue) (c : VisualClip)
    (h : overlayStep env size num_slides time_played cue = .ok c) : c.layer = 2 := by
  simp only [overlayStep] at h
  split at h
  · split at h
    · exact absurd h (by simp)
    · simp only [Except.ok.injEq] at h
      subst h
      rfl
  · exact absurd h (by simp)

/-- Every clip produced by the overlay loop is either carried in from
the accumulator or on layer 2. -/
theorem overlayLoop_layers (env : String → ℚ) (size : ℤ × ℤ) (num_slides : ℕ)
    (time_played : ℚ) :
    ∀ (cues : List OverlayCue) (olen : ℚ) (acc clips : List VisualClip) (olen' : ℚ),
    overlayLoop env size num_slides time_played cues olen acc = .ok (clips, olen') →
    ∀ c ∈ clips, c ∈ acc ∨ c.layer = 2 := by
  intro cues
  induction cues with
  | nil =>
    intro olen acc clips olen' h c hc
    simp only [overlayLoop, Except.ok.injEq, Prod.mk.injEq] at h
    obtain ⟨h1, _⟩ := h
    subst h1
    exact Or.inl hc
  | cons cue rest ih =>
    intro olen acc clips olen' h c hc
    cases hstep : overlayStep env size num_slides time_played cue with
    | error e =>
      simp only [overlayLoop, hstep] at h
      exact absurd h (by simp)
    | ok clip =>
      simp only [overlayLoop, hstep] at h
      rcases ih _ _ _ _ h c hc with hmem | hl
      · rcases List.mem_append.mp hmem with hmem' | hsing
        · exact Or.inl hmem'
        · right
          rw [List.mem_singleton.mp hsing]
          exact overlayStep_layer _ _ _ _ _ _ hstep
      · exact Or.inr hl

/-- Shape of one successful slide step: the video clips grow by the
layer-2 overlay clips plus one base clip starting at the entry clock
with length `final + transition.duration`, and the clock advances by
exactly `final`. -/
theorem slideStep_shape (slides_full : List PhysicalSlide)
    (speech_data : List SpeechClip) (env : String → ℚ) (transition : Transition)
    (audio_gap : ℚ) (size : ℤ × ℤ) (physical_slide : PhysicalSlide) (img i : ℕ)
    (st st' : ComposeState)
    (h : slideStep slides_full speech_data env transition audio_gap size
      physical_slide img i st = .ok st') :
    ∃ (oclips : List VisualClip) (aclips : List AudioClip) (final : ℚ),
      st'.video_clips = st.video_clips ++ oclips ++
        [baseClip img st.time_played final transition size i] ∧
      (∀ c ∈ oclips, c.layer = 2) ∧
      st'.time_played = st.time_played + final ∧
      st'.audio_clips = st.audio_clips ++ aclips := by
  cases hov : overlayLoop env size slides_full.length st.time_played
      physical_slide.videoOverlays 0 [] with
  | error e =>
    simp only [slideStep, hov] at h
    exact absurd h (by simp)
  | ok p =>
    obtain ⟨oc, olen⟩ := p
    cases hau : audioLoop speech_data audio_gap st.time_played
        physical_slide.speeches st.still_requied st.audio_started 0 [] with
    | error e =>
      simp only [slideStep, hov, hau] at h
      exact absurd h (by simp)
    | ok q =>
      obtain ⟨started, total, aclips⟩ := q
      simp only [slideStep, hov, hau, Except.ok.injEq] at h
      subst h
      refine ⟨oc, aclips,
        (if i + 1 = slides_full.length ∨ nextHasSpeeches slides_full i
         then max (max physical_slide.duration olen)
           (st.still_requied + total + audio_gap)
         else max physical_slide.duration olen), rfl, ?_, rfl, rfl⟩
      intro c hc
      rcases overlayLoop_layers env size slides_full.length st.time_played
        physical_slide.videoOverlays 0 [] oc olen hov c hc with hmem | hl
      · exact absurd hmem (by simp)
      · exact hl

/-- The slide walk appends clips whose base-clip subsequence satisfies
the chain invariant from the entry index and clock. -/
theorem composeAux_chain (slides_full : List PhysicalSlide)
    (speech_data : List SpeechClip) (env : String → ℚ) (transition : Transition)
    (audio_gap : ℚ) (size : ℤ × ℤ) :
    ∀ (l : List (PhysicalSlide × ℕ)) (i : ℕ) (st st' : ComposeState),
    composeAux slides_full speech_data env transition audio_gap size l i st =
      .ok st' →
    ∃ Δ : List VisualClip,
      st'.video_clips = st.video_clips ++ Δ ∧
      baseFadeChain transition i st.time_played (Δ.filter isBaseClip) := by
  intro l
  induction l with
  | nil =>
    intro i st st' h
    simp only [composeAux, Except.ok.injEq] at h
    subst h
    exact ⟨[], by simp, trivial⟩
  | cons p rest ih =>
    obtain ⟨slide, img⟩ := p
    intro i st st' h
    cases hstep : slideStep slides_full speech_data env transition audio_gap size
        slide img i st with
    | error e =>
      simp only [composeAux, hstep] at h
      exact absurd h (by simp)
    | ok st1 =>
      simp only [composeAux, hstep] at h
      obtain ⟨oclips, aclips, final, hv, hlay, ht, ha⟩ :=
        slideStep_shape slides_full speech_data env transition audio_gap size
          slide img i st st1 hstep
      obtain ⟨Δ2, hv2, hchain2⟩ := ih (i + 1) st1 st' h
      refine ⟨(oclips ++ [baseClip img st.time_played final transition size i]) ++ Δ2,
        ?_, ?_⟩
      · rw [hv2, hv]
        simp [List.append_assoc]
      · have hfo : (oclips ++
            [baseClip img st.time_played final transition size i]).filter isBaseClip =
            [baseClip img st.time_played final transition size i] := by
          rw [List.filter_append]
          have h1 : oclips.filter isBaseClip = [] :=
            List.filter_eq_nil_iff.mpr (fun c hc => by simp [isBaseClip, hlay c hc])
          rw [h1]
          simp [isBaseClip, baseClip]
        rw [List.filter_append, hfo]
        have harith : st.time_played +
            ((baseClip img st.time_played final transition size i).duration -
              transition.duration) = st1.time_played := by
          simp only [baseClip]
          rw [ht]
          ring
        exact ⟨rfl, rfl, by rw [harith]; exact hchain2⟩

/-- Reading the chain invariant off by index: consecutive starts, and
the fade-in rule at absolute index `i + j`. -/
theorem baseFadeChain_get (transition : Transition) :
    ∀ (l : List VisualClip) (i : ℕ) (t : ℚ),
    baseFadeChain transition i t l →
    (∀ j (c c' : VisualClip), l[j]? = some c → l[j + 1]? = some c' →
      c'.start = c.start + (c.duration - transition.duration)) ∧
    (∀ j (c : VisualClip), l[j]? = some c →
      c.fadeIn = if 0 < i + j ∧ transition.type = .fade then some transition.duration
                 else Option.none) := by
  intro l
  induction l with
  | nil =>
    intro i t _
    refine ⟨fun j c c' h1 _ => ?_, fun j c h1 => ?_⟩ <;> simp at h1
  | cons c0 cs ih =>
    intro i t hch
    obtain ⟨hs, hf, hrest⟩ := hch
    obtain ⟨ih1, ih2⟩ := ih (i + 1) (t + (c0.duration - transition.duration)) hrest
    constructor
    · intro j c c' h1 h2
      cases j with
      | zero =>
        simp only [List.getElem?_cons_zero, Option.some.injEq] at h1
        subst h1
        simp only [List.getElem?_cons_succ] at h2
        cases cs with
        | nil => simp at h2
        | cons c1 cs' =>
          simp only [List.getElem?_cons_zero, Option.some.injEq] at h2
          subst h2
          obtain ⟨hs1, _, _⟩ := hrest
          rw [hs1, hs]
      | succ j' =>
        simp only [List.getElem?_cons_succ] at h1 h2
        exact ih1 j' c c' h1 h2
    · intro j c h1
      cases j with
      | zero =>
        simp only [List.getElem?_cons_zero, Option.some.injEq] at h1
        subst h1
        simpa using hf
      | succ j' =>
        simp only [List.getElem?_cons_succ] at h1
        have := ih2 j' c h1
        rw [show i + (j' + 1) = i + 1 + j' from by omega]
        exact this

/-- C7: in every composed timeline, the base clips form the chain from
clock 0: the start of base clip `j + 1` equals the start of base clip
`j` plus slide `j`'s final duration (the clip length minus the trailing
transition overlap — the overlap is not added to the running clock), and
a clip carries a fade-in of length `transition.duration` exactly when it
is not the first slide and the transition kind is fade. -/
theorem claim_C7 (physical_slide_to_speech : List PhysicalSlide)
    (physical_slide_images : List ℕ) (speech_data : List SpeechClip)
    (env : String → ℚ) (transition : Transition) (audio_gap : ℚ) (size : ℤ × ℤ)
    (tl : Timeline)
    (h : compose_video_clip physical_slide_to_speech physical_slide_images
      speech_data env transition audio_gap size = .ok tl) :
    baseFadeChain transition 0 0 (tl.video_clips.filter isBaseClip) ∧
    (∀ j (c c' : VisualClip), (tl.video_clips.filter isBaseClip)[j]? = some c →
      (tl.video_clips.filter isBaseClip)[j + 1]? = some c' →
      c'.start = c.start + (c.duration - transition.duration)) ∧
    (∀ j (c : VisualClip), (tl.video_clips.filter isBaseClip)[j]? = some c →
      c.fadeIn = if 0 < j ∧ transition.type = .fade then some transition.duration
                 else Option.none) := by
  simp only [compose_video_clip] at h
  split at h
  · exact absurd h (by simp)
  · cases hca : composeAux physical_slide_to_speech speech_data env transition
        audio_gap size (physical_slide_to_speech.zip physical_slide_images) 0
        { still_requied := 0, time_played := 0, audio_started := 0,
          video_clips := [], audio_clips := [] } with
    | error e => rw [hca] at h; exact absurd h (by simp)
    | ok st' =>
      rw [hca] at h
      simp only [Except.ok.injEq] at h
      subst h
      obtain ⟨Δ, hv, hchain⟩ := composeAux_chain physical_slide_to_speech speech_data
        env transition audio_gap size
        (physical_slide_to_speech.zip physical_slide_images) 0 _ st' hca
      simp only [List.nil_append] at hv
      have hch : baseFadeChain transition 0 0 (st'.video_clips.filter isBaseClip) := by
        rw [hv]
        exact hchain
      obtain ⟨g1, g2⟩ := baseFadeChain_get transition _ 0 0 hch
      refine ⟨hch, g1, ?_⟩
      intro j c h1
      simpa using g2 j c h1

/-- The two silent slides of the C7 witness. -/
def w7slides : List PhysicalSlide :=
  [{ speeches := [], videoOverlays := [], duration := 2 },
   { speeches := [], videoOverlays := [], duration := 3 }]

/-- The fade transition of the C7 witness. -/
def w7tr : Transition := { type := .fade, duration := 1/2 }

/-- The timeline the C7 witness composes: two base clips, the second
starting at 2 = 0 + (5/2 - 1/2) with a fade-in. -/
def w7tl : Timeline :=
  { video_clips :=
      [{ source := .image 0, start := 0, duration := 5/2, layer := 0,
         pos := Option.none, resizeParam := Option.none,
         resizeFull := some (100, 100), fadeIn := Option.none, timeMirror := false },
       { source := .image 1, start := 2, duration := 7/2, layer := 0,
         pos := Option.none, resizeParam := Option.none,
         resizeFull := some (100, 100), fadeIn := some (1/2), timeMirror := false }],
    audio_clips := [] }

/-- Witness for C7 on a concrete two-slide composition. -/
theorem claim_C7_witness :
    compose_video_clip w7slides [0, 1] [] (fun _ => 0) w7tr (1/5) (100, 100) =
      .ok w7tl ∧
    baseFadeChain w7tr 0 0 (w7tl.video_clips.filter isBaseClip) := by
  have hok : compose_video_clip w7slides [0, 1] [] (fun _ => 0) w7tr (1/5) (100, 100) =
      .ok w7tl := by
    norm_num [compose_video_clip, composeAux, slideStep, overlayLoop, audioLoop,
      nextHasSpeeches, w7slides, w7tr, w7tl]
    intro hcon
    exact absurd hcon (by decide)
  exact ⟨hok, (claim_C7 _ _ _ _ _ _ _ _ hok).1⟩

end Touying2Video
